import Mathlib

/-!
Verification development for `convertRmvbToMp4.py`, a command-line RMVB→MP4
converter driving an external `ffmpeg` process.

Modelling conventions.

* Python strings are embedded as `List Char`; Python `float` arithmetic on
  durations and percentages is idealised as exact rational arithmetic (`ℚ`).
* The external world (filesystem checks, subprocess launches, the ffprobe and
  ffmpeg processes, exceptions raised by OS calls) is an explicit environment
  parameter; each external interaction the program observes is one field.
* Fallible Python code is embedded with `Option`/`Except`: a Python function
  that can let an exception escape returns `Except PyExn _`.

All definitions are translated from the source file `convertRmvbToMp4.py`;
line numbers in doc comments refer to it.
-/

/-- Characters of the literal `"time="`, the marker searched for by the
progress-line regular expression (source line 89). -/
def timeMarker : List Char := "time=".toList

/-- Characters of the literal `"progress="` used for the end-of-stream check
(source line 172). -/
def progressTok : List Char := "progress=".toList

/-- Characters of the literal `"end"` used for the end-of-stream check
(source line 173). -/
def endTok : List Char := "end".toList

/-- Boolean test that `needle` is a prefix of `hay` (character lists). -/
def isPrefixL : List Char → List Char → Bool
  | [], _ => true
  | _ :: _, [] => false
  | n :: ns, h :: hs => n = h && isPrefixL ns hs

/-- Boolean test that `needle` occurs as a contiguous substring of `hay`;
embeds Python's `needle in hay` on strings. -/
def hasSubstr : List Char → List Char → Bool
  | [], needle => needle.isEmpty
  | h :: hs, needle => isPrefixL needle (h :: hs) || hasSubstr hs needle

/-- Strip the literal `p` from the front of `cs`; `none` when `cs` does not
start with `p`.  Used to embed matching the literal part `time=` of the
regular expression at one candidate position. -/
def dropLit : List Char → List Char → Option (List Char)
  | [], cs => some cs
  | _ :: _, [] => none
  | p :: ps, c :: cs => if p = c then dropLit ps cs else none

/-- Greedily split off the longest leading run of decimal digits; embeds the
greedy `\d+` / `\d*` pieces of the regular expression on source line 89. -/
def takeDigits : List Char → List Char × List Char
  | [] => ([], [])
  | c :: cs =>
    if c.isDigit then (c :: (takeDigits cs).1, (takeDigits cs).2)
    else ([], c :: cs)

/-- Numeric value of a digit string, embedding Python `int` on a digit-only
string (also used for the integral and fractional parts fed to `float`). -/
def digitsVal (cs : List Char) : ℕ :=
  cs.foldl (fun a c => 10 * a + (c.toNat - 48)) 0

/-- Total seconds computed on source line 95 from the three matched groups:
`hours * 3600 + minutes * 60 + seconds`, where the seconds group consists of
an integral digit string and an optional fractional digit string. -/
def timeVal (h m s frac : List Char) : ℚ :=
  (digitsVal h : ℚ) * 3600 + (digitsVal m : ℚ) * 60 + (digitsVal s : ℚ) +
    (digitsVal frac : ℚ) / 10 ^ frac.length

/-- Match the part of the regular expression after the literal `time=`:
`(\d+):(\d+):(\d+\.?\d*)` with greedy digit runs (source line 89), returning
the total seconds of source line 95 on success. -/
def matchTimeRest (r0 : List Char) : Option ℚ :=
  match takeDigits r0 with
  | ([], _) => none
  | (h, r1) =>
    match r1 with
    | ':' :: r2 =>
      match takeDigits r2 with
      | ([], _) => none
      | (m, r3) =>
        match r3 with
        | ':' :: r4 =>
          match takeDigits r4 with
          | ([], _) => none
          | (s, r5) =>
            match r5 with
            | '.' :: r6 => some (timeVal h m s (takeDigits r6).1)
            | _ => some (timeVal h m s [])
        | _ => none
    | _ => none

/-- Attempt the whole regular expression `time=(\d+):(\d+):(\d+\.?\d*)` at one
fixed position of the line. -/
def matchTimeAt (cs : List Char) : Option ℚ :=
  match dropLit timeMarker cs with
  | none => none
  | some r0 => matchTimeRest r0

/-- Leftmost-match search of the regular expression over the line, embedding
`re.search` (source line 89): candidate positions are tried left to right and
the first success wins. -/
def searchTime : List Char → Option ℚ
  | [] => none
  | c :: cs =>
    match matchTimeAt (c :: cs) with
    | some v => some v
    | none => searchTime cs

/-- The Progress Parser `_parse_ffmpeg_progress` (source lines 74–96): extract
the first `time=HH:MM:SS[.ff]` timestamp of a line as total seconds, `none`
when the regular expression does not match. -/
def parse_ffmpeg_progress (line : List Char) : Option ℚ := searchTime line

section

attribute [local semireducible] Rat.mul Rat.add Rat.sub Rat.inv Rat.ofScientific

/-- Boolean test that the list is empty or starts with a non-digit character;
this is the side condition under which a greedy digit run stops. -/
def headNotDigit : List Char → Bool
  | [] => true
  | c :: _ => !c.isDigit

lemma takeDigits_of_headNotDigit {s : List Char} (h : headNotDigit s = true) :
    takeDigits s = ([], s) := by
  cases s with
  | nil => rfl
  | cons c s' =>
    have hc : c.isDigit = false := by simpa [headNotDigit] using h
    simp [takeDigits, hc]

lemma takeDigits_digits_append {ds s : List Char}
    (hd : ∀ c ∈ ds, c.isDigit = true) (hs : headNotDigit s = true) :
    takeDigits (ds ++ s) = (ds, s) := by
  induction ds with
  | nil => simpa using takeDigits_of_headNotDigit hs
  | cons d ds' ih =>
    have hd0 : d.isDigit = true := hd d (by simp)
    have ih' := ih (fun c hc => hd c (by simp [hc]))
    simp [takeDigits, hd0, ih']

lemma dropLit_self_append (p s : List Char) : dropLit p (p ++ s) = some s := by
  induction p with
  | nil => rfl
  | cons c cs ih => simp [dropLit, ih]

lemma dropLit_some_isPrefixL {p cs r : List Char} (h : dropLit p cs = some r) :
    isPrefixL p cs = true := by
  induction p generalizing cs with
  | nil => rfl
  | cons x xs ih =>
    cases cs with
    | nil => simp [dropLit] at h
    | cons c cs' =>
      by_cases hx : x = c
      · subst hx
        simp only [dropLit, if_pos rfl] at h
        simp [isPrefixL, ih h]
      · simp [dropLit, hx] at h

lemma matchTimeAt_some_isPrefixL {cs : List Char} {v : ℚ}
    (h : matchTimeAt cs = some v) : isPrefixL timeMarker cs = true := by
  unfold matchTimeAt at h
  cases hd : dropLit timeMarker cs with
  | none => rw [hd] at h; exact absurd h (by simp)
  | some r0 => exact dropLit_some_isPrefixL hd

lemma searchTime_some_hasSubstr {cs : List Char} {v : ℚ}
    (h : searchTime cs = some v) : hasSubstr cs timeMarker = true := by
  induction cs with
  | nil => simp [searchTime] at h
  | cons c cs' ih =>
    rw [searchTime] at h
    cases hm : matchTimeAt (c :: cs') with
    | some w =>
      simp [hasSubstr, matchTimeAt_some_isPrefixL hm]
    | none =>
      rw [hm] at h
      simp [hasSubstr, ih h]

lemma searchTime_skip {rest : List Char} : ∀ (p : List Char),
    (∀ q ∈ p.tails, q ≠ [] → matchTimeAt (q ++ rest) = none) →
    searchTime (p ++ rest) = searchTime rest := by
  intro p
  induction p with
  | nil => intro _; rfl
  | cons c p' ih =>
    intro h
    have h0 : matchTimeAt ((c :: p') ++ rest) = none :=
      h (c :: p') (by simp [List.tails_cons]) (by simp)
    have h' : ∀ q ∈ p'.tails, q ≠ [] → matchTimeAt (q ++ rest) = none :=
      fun q hq hne => h q (by simp [List.tails_cons, hq]) hne
    calc searchTime ((c :: p') ++ rest)
        = searchTime (p' ++ rest) := by
          rw [List.cons_append, searchTime]
          rw [List.cons_append] at h0
          rw [h0]
      _ = searchTime rest := ih h'

/-- The timestamp marker named by claim C1. -/
def c1marker : List Char := "time=03:02:01.50".toList

lemma c1marker_eq :
    c1marker =
      ['t', 'i', 'm', 'e', '=', '0', '3', ':', '0', '2', ':', '0', '1', '.', '5', '0'] := rfl

lemma timeMarker_eq : timeMarker = ['t', 'i', 'm', 'e', '='] := rfl

lemma matchTimeAt_c1marker {s : List Char} (hs : headNotDigit s = true) :
    matchTimeAt (c1marker ++ s) = some (10921.5 : ℚ) := by
  have hts : takeDigits s = ([], s) := takeDigits_of_headNotDigit hs
  have hv : timeVal ['0', '3'] ['0', '2'] ['0', '1'] ['5', '0'] = (10921.5 : ℚ) := by decide
  simp [c1marker_eq, timeMarker_eq, matchTimeAt, matchTimeRest, dropLit, takeDigits, hts, hv]

lemma parse_marker_line {p s : List Char}
    (hp : ∀ q ∈ p.tails, q ≠ [] → matchTimeAt (q ++ (c1marker ++ s)) = none)
    (hs : headNotDigit s = true) :
    parse_ffmpeg_progress (p ++ (c1marker ++ s)) = some (10921.5 : ℚ) := by
  unfold parse_ffmpeg_progress
  rw [searchTime_skip p hp]
  have hm := matchTimeAt_c1marker hs
  rw [c1marker_eq] at hm ⊢
  simp only [List.cons_append, List.nil_append] at hm ⊢
  rw [searchTime, hm]

/-- C1: for every line in which the occurrence of `time=03:02:01.50` is the
first match of the time pattern (no match of the pattern starts earlier in the
line) and is not immediately followed by a further digit, the Progress Parser
returns `10921.5` seconds; every line not containing the marker `time=`
returns no value.  (The claim as frozen — "every line containing the substring
`time=03:02:01.50`" — is refuted by `progress_parser_c1_counterexample`: the
greedy regular expression of source line 89 extends the match with following
digits, and `re.search` prefers an earlier match.) -/
theorem progress_parser_c1 :
    (∀ p s : List Char,
        (∀ q ∈ p.tails, q ≠ [] → matchTimeAt (q ++ (c1marker ++ s)) = none) →
        headNotDigit s = true →
        parse_ffmpeg_progress (p ++ (c1marker ++ s)) = some (10921.5 : ℚ)) ∧
    (∀ line : List Char, hasSubstr line timeMarker = false →
        parse_ffmpeg_progress line = none) := by
  constructor
  · intro p s hp hs
    exact parse_marker_line hp hs
  · intro line h
    cases hv : parse_ffmpeg_progress line with
    | none => rfl
    | some v =>
      have := searchTime_some_hasSubstr hv
      rw [h] at this
      exact absurd this (by simp)

/-- The line `time=03:02:01.505` used to refute claim C1 as frozen. -/
def c1cex : List Char := "time=03:02:01.505".toList

/-- C1 counterexample: the line `time=03:02:01.505` contains the substring
`time=03:02:01.50`, yet the Progress Parser returns `10921.505`, not
`10921.5`, because the third group of the regular expression is greedy. -/
theorem progress_parser_c1_counterexample :
    hasSubstr c1cex c1marker = true ∧
    parse_ffmpeg_progress c1cex = some (10921.505 : ℚ) ∧
    (10921.505 : ℚ) ≠ (10921.5 : ℚ) :=
  ⟨by decide, by decide, by decide⟩

/-- Prefix used in the C1 witness line. -/
def c1wpre : List Char := "x ".toList

/-- Suffix used in the C1 witness line. -/
def c1wsuf : List Char := " bitrate".toList

/-- A line without any `time=` marker, used in the C1 witness. -/
def c1wneg : List Char := "frame=  12 fps=0.0 q=28.0".toList

/-- Witness for C1: the amended statement applied at a concrete line, and the
no-marker case applied at a concrete line. -/
theorem progress_parser_c1_witness :
    parse_ffmpeg_progress (c1wpre ++ (c1marker ++ c1wsuf)) = some (10921.5 : ℚ) ∧
    parse_ffmpeg_progress c1wneg = none :=
  ⟨progress_parser_c1.1 c1wpre c1wsuf (by decide) (by decide),
   progress_parser_c1.2 c1wneg (by decide)⟩

/-- Concatenation of the collected diagnostic-stream lines, embedding
`''.join(stderr_output)` (source line 187). -/
def joinLines : List (List Char) → List Char
  | [] => []
  | l :: ls => l ++ joinLines ls

/-- Result object returned by `_run_ffmpeg_with_progress`, embedding the local
`Result` class of source lines 182–187: the child's exit code plus the full
accumulated diagnostic text. -/
structure FfmpegResult where
  returncode : Int
  stderr : List Char

/-- The progress-reading loop of `_run_ffmpeg_with_progress` (source lines
152–174), embedded as a pure function from the sequence of progress-stream
lines to the sequence of percentages passed to the sink, given the known total
duration and the last reported percentage (`last_progress`, initially `0.0`).
For each line: parse a timestamp; when one is found and the duration is
positive, compute `min(time / duration * 100, 100)` and report it only when it
advanced by at least `1.0` over the last reported percentage; afterwards stop
when the line contains both `progress=` and `end`.  The loop updates
`last_progress` only when it reports. -/
def ffmpeg_progress_loop (total : ℚ) : ℚ → List (List Char) → List ℚ
  | _, [] => []
  | last, line :: rest =>
    match parse_ffmpeg_progress line with
    | some t =>
      if 0 < total then
        if 1 ≤ min (t / total * 100) 100 - last then
          min (t / total * 100) 100 ::
            (if hasSubstr line progressTok && hasSubstr line endTok then []
             else ffmpeg_progress_loop total (min (t / total * 100) 100) rest)
        else
          if hasSubstr line progressTok && hasSubstr line endTok then []
          else ffmpeg_progress_loop total last rest
      else
        if hasSubstr line progressTok && hasSubstr line endTok then []
        else ffmpeg_progress_loop total last rest
    | none =>
      if hasSubstr line progressTok && hasSubstr line endTok then []
      else ffmpeg_progress_loop total last rest

/-- The Process Supervisor `_run_ffmpeg_with_progress` (source lines 98–187):
runs the child to completion, returning the result object (exit code and the
concatenated diagnostic stream) together with the sequence of percentages the
reading loop passes to the sink.  The child process itself is abstracted by
its observable behaviour: its progress-stream lines, diagnostic-stream lines
and exit code. -/
def run_ffmpeg_with_progress (total : ℚ) (stdoutLines stderrLines : List (List Char))
    (returncode : Int) : FfmpegResult × List ℚ :=
  (⟨returncode, joinLines stderrLines⟩, ffmpeg_progress_loop total 0 stdoutLines)

lemma timeVal_nonneg (h m s frac : List Char) : 0 ≤ timeVal h m s frac := by
  unfold timeVal
  positivity

lemma matchTimeRest_nonneg {r0 : List Char} {v : ℚ} (h : matchTimeRest r0 = some v) :
    0 ≤ v := by
  unfold matchTimeRest at h
  repeat' split at h
  all_goals first
    | exact Option.noConfusion h
    | (rw [Option.some_inj] at h; exact h ▸ timeVal_nonneg _ _ _ _)

lemma matchTimeAt_nonneg {cs : List Char} {v : ℚ} (h : matchTimeAt cs = some v) :
    0 ≤ v := by
  unfold matchTimeAt at h
  split at h
  · exact absurd h (by simp)
  · exact matchTimeRest_nonneg h

lemma parse_ffmpeg_progress_nonneg {line : List Char} {v : ℚ}
    (h : parse_ffmpeg_progress line = some v) : 0 ≤ v := by
  unfold parse_ffmpeg_progress at h
  induction line with
  | nil => exact absurd h (by simp [searchTime])
  | cons c cs ih =>
    rw [searchTime] at h
    cases hm : matchTimeAt (c :: cs) with
    | some w =>
      rw [hm] at h
      injection h with h'
      exact h' ▸ matchTimeAt_nonneg hm
    | none =>
      rw [hm] at h
      exact ih h

lemma loop_cons_none {line : List Char} {total last : ℚ} {rest : List (List Char)}
    (h : parse_ffmpeg_progress line = none) :
    ffmpeg_progress_loop total last (line :: rest) =
      if hasSubstr line progressTok && hasSubstr line endTok then []
      else ffmpeg_progress_loop total last rest := by
  rw [ffmpeg_progress_loop, h]

lemma loop_cons_some {line : List Char} {total last t : ℚ} {rest : List (List Char)}
    (h : parse_ffmpeg_progress line = some t) :
    ffmpeg_progress_loop total last (line :: rest) =
      if 0 < total then
        if 1 ≤ min (t / total * 100) 100 - last then
          min (t / total * 100) 100 ::
            (if hasSubstr line progressTok && hasSubstr line endTok then []
             else ffmpeg_progress_loop total (min (t / total * 100) 100) rest)
        else
          if hasSubstr line progressTok && hasSubstr line endTok then []
          else ffmpeg_progress_loop total last rest
      else
        if hasSubstr line progressTok && hasSubstr line endTok then []
        else ffmpeg_progress_loop total last rest := by
  rw [ffmpeg_progress_loop, h]

lemma ffmpeg_progress_loop_chain (total : ℚ) (lines : List (List Char)) :
    ∀ last : ℚ,
      List.Chain (fun a b => 1 ≤ b - a) last (ffmpeg_progress_loop total last lines) := by
  induction lines with
  | nil => intro last; exact List.Chain.nil
  | cons line rest ih =>
    intro last
    cases hpt : parse_ffmpeg_progress line with
    | none =>
      rw [loop_cons_none hpt]
      split
      · exact List.Chain.nil
      · exact ih last
    | some t =>
      rw [loop_cons_some hpt]
      split_ifs with h1 h2 h3 h4 h5
      · exact List.Chain.cons h2 List.Chain.nil
      · exact List.Chain.cons h2 (ih _)
      · exact List.Chain.nil
      · exact ih last
      · exact List.Chain.nil
      · exact ih last

lemma ffmpeg_progress_loop_le_100 (total : ℚ) (lines : List (List Char)) :
    ∀ last x : ℚ, x ∈ ffmpeg_progress_loop total last lines → x ≤ 100 := by
  induction lines with
  | nil =>
    intro last x hx
    rw [ffmpeg_progress_loop] at hx
    simp at hx
  | cons line rest ih =>
    intro last x hx
    cases hpt : parse_ffmpeg_progress line with
    | none =>
      rw [loop_cons_none hpt] at hx
      split at hx
      · simp at hx
      · exact ih last x hx
    | some t =>
      rw [loop_cons_some hpt] at hx
      split_ifs at hx with h1 h2 h3 h4 h5
      · rcases List.mem_cons.mp hx with h | h
        · exact h ▸ min_le_right _ _
        · simp at h
      · rcases List.mem_cons.mp hx with h | h
        · exact h ▸ min_le_right _ _
        · exact ih _ x h
      · simp at hx
      · exact ih last x hx
      · simp at hx
      · exact ih last x hx

lemma ffmpeg_progress_loop_nonneg (total : ℚ) (lines : List (List Char)) :
    ∀ last x : ℚ, x ∈ ffmpeg_progress_loop total last lines → 0 ≤ x := by
  induction lines with
  | nil =>
    intro last x hx
    rw [ffmpeg_progress_loop] at hx
    simp at hx
  | cons line rest ih =>
    intro last x hx
    cases hpt : parse_ffmpeg_progress line with
    | none =>
      rw [loop_cons_none hpt] at hx
      split at hx
      · simp at hx
      · exact ih last x hx
    | some t =>
      have ht : (0 : ℚ) ≤ t := parse_ffmpeg_progress_nonneg hpt
      rw [loop_cons_some hpt] at hx
      split_ifs at hx with h1 h2 h3 h4 h5
      · rcases List.mem_cons.mp hx with h | h
        · subst h
          exact le_min (by positivity) (by norm_num)
        · simp at h
      · rcases List.mem_cons.mp hx with h | h
        · subst h
          exact le_min (by positivity) (by norm_num)
        · exact ih _ x h
      · simp at hx
      · exact ih last x hx
      · simp at hx
      · exact ih last x hx

/-- Progress-stream line yielding a raw percentage of 0 against a duration of
100 seconds. -/
def c2line1 : List Char := "time=00:00:00.0".toList

/-- Progress-stream line yielding a raw percentage of 0.4. -/
def c2line2 : List Char := "time=00:00:00.4".toList

/-- Progress-stream line yielding a raw percentage of 0.9. -/
def c2line3 : List Char := "time=00:00:00.9".toList

/-- Progress-stream line yielding a raw percentage of 1.2. -/
def c2line4 : List Char := "time=00:00:01.2".toList

/-- Progress-stream line yielding a raw percentage of 2.5. -/
def c2line5 : List Char := "time=00:00:02.5".toList

/-- Progress-stream line yielding a raw percentage of 2.6. -/
def c2line6 : List Char := "time=00:00:02.6".toList

/-- The C2 progress-line sequence whose raw percentages against a total
duration of 100 seconds are `[0, 0.4, 0.9, 1.2, 2.5, 2.6]`. -/
def c2lines : List (List Char) :=
  [c2line1, c2line2, c2line3, c2line4, c2line5, c2line6]

/-- C2: the reading loop reports to the sink only when the newly computed
percentage advanced by at least `1.0` over the last reported percentage (the
reported sequence is a chain with gaps of at least 1 starting from the initial
`last_progress`), and on the concrete line sequence with raw percentages
`[0, 0.4, 0.9, 1.2, 2.5, 2.6]` against duration 100 the loop makes exactly two
sink reports. -/
theorem supervisor_throttle_c2 :
    (∀ (total last : ℚ) (lines : List (List Char)),
        List.Chain (fun a b => 1 ≤ b - a) last (ffmpeg_progress_loop total last lines)) ∧
    (ffmpeg_progress_loop 100 0 c2lines).length = 2 :=
  ⟨fun total last lines => ffmpeg_progress_loop_chain total lines last, by decide⟩

/-- Python exception values observable at the component boundaries:
`subprocess.TimeoutExpired` (caught separately on source line 294) and any
other exception, carried with its message text. -/
inductive PyExn
  | timeoutExpired
  | other (msg : List Char)
  deriving DecidableEq

/-- Observable outcome of parsing the ffprobe standard output inside
`_get_video_duration` (source lines 64–68): `json.loads` raises on malformed
output; the `format`/`duration` fields may be absent; `float(...)` may raise;
otherwise a duration value is obtained. -/
inductive JsonDur
  | malformed
  | noField
  | notFloat
  | val (d : ℚ)
  deriving DecidableEq

/-- Observable behaviour of the external ffprobe invocation made by
`_get_video_duration` (source line 62): the call may raise
`FileNotFoundError`, may raise `subprocess.TimeoutExpired` after the 30 s
timeout, or completes with an exit code and standard output. -/
inductive ProbeCall
  | procNotFound
  | timeout
  | run (returncode : Int) (stdout : JsonDur)
  deriving DecidableEq

/-- The timeout in seconds passed to `subprocess.run` by the Duration Probe
(source line 62). -/
def ffprobe_timeout_seconds : ℕ := 30

/-- The Duration Probe `_get_video_duration` (source lines 51–72).  The whole
body sits under `try ... except Exception: return None`, so every failure
mode of the external call or of output parsing collapses to `none`; on exit
code 0 with well-formed output carrying a `format.duration` field it returns
the parsed duration.  Totality of this function embeds the fact that the
probe never raises to its caller. -/
def get_video_duration (p : ProbeCall) : Option ℚ :=
  match p with
  | ProbeCall.procNotFound => none
  | ProbeCall.timeout => none
  | ProbeCall.run rc out =>
    if rc = 0 then
      match out with
      | JsonDur.malformed => none
      | JsonDur.noField => none
      | JsonDur.notFloat => none
      | JsonDur.val d => some d
    else none

/-- C7: the Duration Probe is total (never raises), collapses every failure
mode — process not found, timeout, non-zero exit, malformed JSON, missing
duration field, unparsable duration value — to the unknown result `none`,
applies a 30-second timeout to the external call, and on success returns the
parsed duration. -/
theorem duration_probe_c7 :
    get_video_duration ProbeCall.procNotFound = none ∧
    get_video_duration ProbeCall.timeout = none ∧
    (∀ (rc : Int) (out : JsonDur), rc ≠ 0 → get_video_duration (ProbeCall.run rc out) = none) ∧
    (∀ rc : Int, get_video_duration (ProbeCall.run rc JsonDur.malformed) = none) ∧
    (∀ rc : Int, get_video_duration (ProbeCall.run rc JsonDur.noField) = none) ∧
    (∀ rc : Int, get_video_duration (ProbeCall.run rc JsonDur.notFloat) = none) ∧
    (∀ d : ℚ, get_video_duration (ProbeCall.run 0 (JsonDur.val d)) = some d) ∧
    ffprobe_timeout_seconds = 30 := by
  refine ⟨rfl, rfl, ?_, ?_, ?_, ?_, fun d => rfl, rfl⟩
  · intro rc out h
    simp [get_video_duration, h]
  · intro rc
    rcases eq_or_ne rc 0 with h | h <;> simp [get_video_duration, h]
  · intro rc
    rcases eq_or_ne rc 0 with h | h <;> simp [get_video_duration, h]
  · intro rc
    rcases eq_or_ne rc 0 with h | h <;> simp [get_video_duration, h]

/-- Witness for C7: the hypothesis-bearing conjunct applied at a non-zero
exit code. -/
theorem duration_probe_c7_witness :
    get_video_duration (ProbeCall.run 1 JsonDur.malformed) = none :=
  duration_probe_c7.2.2.1 1 JsonDur.malformed (by decide)

/-- Sink messages passed by the converter to the progress callback, one
constructor per call site.  Their rendered string forms in the source are:
`startMsg` = `开始转换...` (line 274); `progressMsg p` = `转换中... {p:.1f}%`
(line 168); `doneMsg` = `转换完成!` (line 286); `failMsg d` = `转换失败: {d}`
(line 291); `timeoutMsg` = `转换超时` (line 297); `errMsg m` =
`转换错误: {m}` (line 302). -/
inductive SinkMsg
  | startMsg
  | progressMsg (pct : ℚ)
  | doneMsg
  | failMsg (diag : List Char)
  | timeoutMsg
  | errMsg (msg : List Char)
  deriving DecidableEq

/-- The fixed prefix of the failure message of source line 291. -/
def failMsgPre : List Char := "转换失败: ".toList

/-- Rendered text of the failure message of source line 291,
`f"转换失败: {result.stderr}"`: a fixed prefix followed by the diagnostic
text verbatim. -/
def failMsgText (diag : List Char) : List Char := failMsgPre ++ diag

/-- A conversion request: the arguments of `convert_rmvb_to_mp4`
(source lines 189–196). -/
structure ConvRequest where
  input_file : List Char
  output_file : Option (List Char)
  quality : List Char
  overwrite : Bool

/-- The external world observed by one run of `convert_rmvb_to_mp4`:
existence of the input path (line 212) and of the resolved output path
(line 226); the outcome of creating the output's parent directory (line 231,
outside the `try` block); the ffprobe behaviour (line 235); whether an
exception interrupts the supervised phase inside the `try` block (lines
269–303); and the child process's exit code and two output streams. -/
structure ConvEnv where
  inputExists : Bool
  outputExists : Bool
  mkdirExc : Option PyExn
  probe : ProbeCall
  runExc : Option PyExn
  returncode : Int
  stdoutLines : List (List Char)
  stderrLines : List (List Char)

/-- Result of one run of the Orchestrator: the returned boolean (or an
escaped exception), the sequence of progress events passed to the sink, and
whether the Duration Probe was consulted and the external process launched. -/
structure ConvResult where
  ret : Except PyExn Bool
  events : List (ℚ × SinkMsg)
  probeInvoked : Bool
  processLaunched : Bool

/-- The Conversion Orchestrator `convert_rmvb_to_mp4` (source lines 189–303).
Control flow follows the source: missing input returns `False` before
anything external happens (lines 212–214); an existing output without
`overwrite` returns `False` before the process is launched (lines 226–228);
`output_path.parent.mkdir` (line 231) sits outside the `try` block, so an
exception there escapes; the probe result (or 0) becomes the total duration
(lines 235–238); inside the `try` block the 0% start event is emitted, the
supervisor runs, and the outcome is interpreted: exit code 0 emits a final
100% event and returns `True`, otherwise a `-1` error event carrying the
accumulated diagnostic text is emitted and `False` returned (lines 269–292);
`subprocess.TimeoutExpired` and any other exception inside the `try` block
are converted to an error event and `False` (lines 294–303).  Events are
delivered only when a sink is supplied; `last_progress` bookkeeping inside
the loop is independent of sink presence (lines 166–169).  Command
construction, logging and the quality table (lines 240–267) have no
observable effect at the modelled boundaries. -/
def convert_rmvb_to_mp4 (env : ConvEnv) (req : ConvRequest) (hasSink : Bool) : ConvResult :=
  if env.inputExists = false then
    { ret := Except.ok false, events := [], probeInvoked := false, processLaunched := false }
  else if env.outputExists && !req.overwrite then
    { ret := Except.ok false, events := [], probeInvoked := false, processLaunched := false }
  else
    match env.mkdirExc with
    | some e =>
      { ret := Except.error e, events := [], probeInvoked := false, processLaunched := false }
    | none =>
      match env.runExc with
      | some PyExn.timeoutExpired =>
        { ret := Except.ok false,
          events :=
            if hasSink then [((0 : ℚ), SinkMsg.startMsg), ((-1 : ℚ), SinkMsg.timeoutMsg)]
            else [],
          probeInvoked := true, processLaunched := true }
      | some (PyExn.other m) =>
        { ret := Except.ok false,
          events :=
            if hasSink then [((0 : ℚ), SinkMsg.startMsg), ((-1 : ℚ), SinkMsg.errMsg m)]
            else [],
          probeInvoked := true, processLaunched := true }
      | none =>
        let total : ℚ := (get_video_duration env.probe).getD 0
        let res :=
          run_ffmpeg_with_progress total env.stdoutLines env.stderrLines env.returncode
        let body : List (ℚ × SinkMsg) :=
          ((0 : ℚ), SinkMsg.startMsg) ::
            res.2.map (fun p => (p, SinkMsg.progressMsg p))
        if env.returncode = 0 then
          { ret := Except.ok true,
            events := if hasSink then body ++ [((100 : ℚ), SinkMsg.doneMsg)] else [],
            probeInvoked := true, processLaunched := true }
        else
          { ret := Except.ok false,
            events :=
              if hasSink then body ++ [((-1 : ℚ), SinkMsg.failMsg res.1.stderr)] else [],
            probeInvoked := true, processLaunched := true }

lemma map_fst_progress (l : List ℚ) :
    l.map (Prod.fst ∘ fun p => (p, SinkMsg.progressMsg p)) = l := by
  induction l with
  | nil => rfl
  | cons x xs ih => simp [ih]

lemma chain_zero_sorted {l : List ℚ} (hc : List.Chain (fun a b => 1 ≤ b - a) 0 l) :
    List.Sorted (· ≤ ·) ((0 : ℚ) :: l) := by
  have h1 : List.Chain (· ≤ ·) (0 : ℚ) l := List.Chain.imp (fun a b h => by linarith) hc
  exact List.chain_iff_pairwise.mp h1

lemma sorted_loop_append_100 (total : ℚ) (lines : List (List Char)) :
    List.Sorted (· ≤ ·) (((0 : ℚ) :: ffmpeg_progress_loop total 0 lines) ++ [(100 : ℚ)]) := by
  refine List.pairwise_append.mpr
    ⟨chain_zero_sorted (ffmpeg_progress_loop_chain total lines 0),
     List.pairwise_singleton _ _, ?_⟩
  intro x hx y hy
  simp only [List.mem_singleton] at hy
  subst hy
  rcases List.mem_cons.mp hx with h | h
  · rw [h]; norm_num
  · exact ffmpeg_progress_loop_le_100 total lines 0 x h

lemma filter_nonneg_loop (total : ℚ) (lines : List (List Char)) :
    ((0 : ℚ) :: ffmpeg_progress_loop total 0 lines).filter (fun p => decide (0 ≤ p)) =
      (0 : ℚ) :: ffmpeg_progress_loop total 0 lines := by
  refine List.filter_eq_self.mpr ?_
  intro a ha
  rw [decide_eq_true_eq]
  rcases List.mem_cons.mp ha with h | h
  · simp [h]
  · exact ffmpeg_progress_loop_nonneg total lines 0 a h

lemma convert_missing_input {env : ConvEnv} {req : ConvRequest} {hasSink : Bool}
    (h : env.inputExists = false) :
    convert_rmvb_to_mp4 env req hasSink =
      { ret := Except.ok false, events := [], probeInvoked := false,
        processLaunched := false } := by
  unfold convert_rmvb_to_mp4
  rw [if_pos h]

lemma convert_early_output {env : ConvEnv} {req : ConvRequest} {hasSink : Bool}
    (h1 : env.inputExists = true) (h2 : (env.outputExists && !req.overwrite) = true) :
    convert_rmvb_to_mp4 env req hasSink =
      { ret := Except.ok false, events := [], probeInvoked := false,
        processLaunched := false } := by
  unfold convert_rmvb_to_mp4
  rw [if_neg (by simp [h1]), if_pos h2]

lemma convert_mkdir_exc {env : ConvEnv} {req : ConvRequest} {hasSink : Bool} {e : PyExn}
    (h1 : env.inputExists = true) (h2 : (env.outputExists && !req.overwrite) = false)
    (h3 : env.mkdirExc = some e) :
    convert_rmvb_to_mp4 env req hasSink =
      { ret := Except.error e, events := [], probeInvoked := false,
        processLaunched := false } := by
  unfold convert_rmvb_to_mp4
  rw [if_neg (by simp [h1]), if_neg (by simp [h2]), h3]

lemma convert_run_timeout {env : ConvEnv} {req : ConvRequest} {hasSink : Bool}
    (h1 : env.inputExists = true) (h2 : (env.outputExists && !req.overwrite) = false)
    (h3 : env.mkdirExc = none) (h4 : env.runExc = some PyExn.timeoutExpired) :
    convert_rmvb_to_mp4 env req hasSink =
      { ret := Except.ok false,
        events :=
          if hasSink then [((0 : ℚ), SinkMsg.startMsg), ((-1 : ℚ), SinkMsg.timeoutMsg)]
          else [],
        probeInvoked := true, processLaunched := true } := by
  unfold convert_rmvb_to_mp4
  rw [if_neg (by simp [h1]), if_neg (by simp [h2]), h3, h4]

lemma convert_run_other {env : ConvEnv} {req : ConvRequest} {hasSink : Bool}
    {m : List Char}
    (h1 : env.inputExists = true) (h2 : (env.outputExists && !req.overwrite) = false)
    (h3 : env.mkdirExc = none) (h4 : env.runExc = some (PyExn.other m)) :
    convert_rmvb_to_mp4 env req hasSink =
      { ret := Except.ok false,
        events :=
          if hasSink then [((0 : ℚ), SinkMsg.startMsg), ((-1 : ℚ), SinkMsg.errMsg m)]
          else [],
        probeInvoked := true, processLaunched := true } := by
  unfold convert_rmvb_to_mp4
  rw [if_neg (by simp [h1]), if_neg (by simp [h2]), h3, h4]

lemma convert_ok {env : ConvEnv} {req : ConvRequest} {hasSink : Bool}
    (h1 : env.inputExists = true) (h2 : (env.outputExists && !req.overwrite) = false)
    (h3 : env.mkdirExc = none) (h4 : env.runExc = none) (h5 : env.returncode = 0) :
    convert_rmvb_to_mp4 env req hasSink =
      { ret := Except.ok true,
        events :=
          if hasSink then
            (((0 : ℚ), SinkMsg.startMsg) ::
              (ffmpeg_progress_loop ((get_video_duration env.probe).getD 0) 0
                  env.stdoutLines).map (fun p => (p, SinkMsg.progressMsg p))) ++
              [((100 : ℚ), SinkMsg.doneMsg)]
          else [],
        probeInvoked := true, processLaunched := true } := by
  unfold convert_rmvb_to_mp4 run_ffmpeg_with_progress
  rw [if_neg (by simp [h1]), if_neg (by simp [h2]), h3, h4]
  rw [if_pos h5]

lemma convert_fail {env : ConvEnv} {req : ConvRequest} {hasSink : Bool}
    (h1 : env.inputExists = true) (h2 : (env.outputExists && !req.overwrite) = false)
    (h3 : env.mkdirExc = none) (h4 : env.runExc = none) (h5 : ¬env.returncode = 0) :
    convert_rmvb_to_mp4 env req hasSink =
      { ret := Except.ok false,
        events :=
          if hasSink then
            (((0 : ℚ), SinkMsg.startMsg) ::
              (ffmpeg_progress_loop ((get_video_duration env.probe).getD 0) 0
                  env.stdoutLines).map (fun p => (p, SinkMsg.progressMsg p))) ++
              [((-1 : ℚ), SinkMsg.failMsg (joinLines env.stderrLines))]
          else [],
        probeInvoked := true, processLaunched := true } := by
  unfold convert_rmvb_to_mp4 run_ffmpeg_with_progress
  rw [if_neg (by simp [h1]), if_neg (by simp [h2]), h3, h4]
  rw [if_neg h5]

lemma sorted_filter_ok (total : ℚ) (lines : List (List Char)) :
    List.Sorted (· ≤ ·)
      ((((0 : ℚ) :: ffmpeg_progress_loop total 0 lines) ++ [(100 : ℚ)]).filter
        (fun p => decide (0 ≤ p))) := by
  have d100 : ([(100 : ℚ)].filter (fun p => decide (0 ≤ p))) = [(100 : ℚ)] := by decide
  rw [List.filter_append, filter_nonneg_loop, d100]
  exact sorted_loop_append_100 total lines

lemma sorted_filter_fail (total : ℚ) (lines : List (List Char)) :
    List.Sorted (· ≤ ·)
      ((((0 : ℚ) :: ffmpeg_progress_loop total 0 lines) ++ [(-1 : ℚ)]).filter
        (fun p => decide (0 ≤ p))) := by
  have dneg : ([(-1 : ℚ)].filter (fun p => decide (0 ≤ p))) = [] := by decide
  rw [List.filter_append, filter_nonneg_loop, dneg, List.append_nil]
  exact chain_zero_sorted (ffmpeg_progress_loop_chain total lines 0)

lemma map_fst_ok_events (total : ℚ) (lines : List (List Char)) (fin : ℚ × SinkMsg) :
    ((((0 : ℚ), SinkMsg.startMsg) ::
        (ffmpeg_progress_loop total 0 lines).map (fun p => (p, SinkMsg.progressMsg p))) ++
        [fin]).map Prod.fst =
      (((0 : ℚ) :: ffmpeg_progress_loop total 0 lines) ++ [fin.1]) := by
  simp [map_fst_progress]

lemma sorted_exc_events (m m' : SinkMsg) :
    List.Sorted (· ≤ ·)
      (([((0 : ℚ), m), ((-1 : ℚ), m')].map Prod.fst).filter (fun p => decide (0 ≤ p))) := by
  simp only [List.map_cons, List.map_nil]
  decide

lemma le100_exc_events (m m' : SinkMsg) :
    ∀ e ∈ [((0 : ℚ), m), ((-1 : ℚ), m')], e.1 ≤ 100 := by
  intro e he
  rcases List.mem_cons.mp he with h | h
  · rw [h]; norm_num
  · rcases List.mem_cons.mp h with h' | h'
    · rw [h']; norm_num
    · exact absurd h' (by simp)

lemma events_body_le_100 {total : ℚ} {lines : List (List Char)} {fin : ℚ × SinkMsg}
    (hfin : fin.1 ≤ 100) :
    ∀ e ∈ (((0 : ℚ), SinkMsg.startMsg) ::
        (ffmpeg_progress_loop total 0 lines).map (fun p => (p, SinkMsg.progressMsg p))) ++
        [fin],
      e.1 ≤ 100 := by
  intro e he
  rcases List.mem_append.mp he with h | h
  · rcases List.mem_cons.mp h with h' | h'
    · rw [h']; norm_num
    · rcases List.mem_map.mp h' with ⟨p, hp, rfl⟩
      simpa using ffmpeg_progress_loop_le_100 total lines 0 p hp
  · simp only [List.mem_singleton] at h
    rw [h]; exact hfin

/-- C3: within a single conversion the percentage values passed to the sink —
the 0% start event, the throttled loop events computed as
`min(time / duration * 100, 100)`, and the final 100% event — form a
non-decreasing sequence (the distinguished negative error sentinel is not a
percentage and is excluded by the nonnegativity filter), and no value ever
passed to the sink, the sentinel included, exceeds 100. -/
theorem progress_monotonicity_c3 (env : ConvEnv) (req : ConvRequest) (hasSink : Bool) :
    List.Sorted (· ≤ ·)
      (((convert_rmvb_to_mp4 env req hasSink).events.map Prod.fst).filter
        (fun p => decide (0 ≤ p))) ∧
    (∀ e ∈ (convert_rmvb_to_mp4 env req hasSink).events, e.1 ≤ 100) := by
  have d0 : (decide ((0 : ℚ) ≤ 0)) = true := by decide
  have dneg : (decide ((0 : ℚ) ≤ -1)) = false := by decide
  cases h1 : env.inputExists with
  | false => rw [convert_missing_input h1]; exact ⟨by simp, by simp⟩
  | true =>
    cases h2 : env.outputExists && !req.overwrite with
    | true => rw [convert_early_output h1 h2]; exact ⟨by simp, by simp⟩
    | false =>
      cases hmk : env.mkdirExc with
      | some e => rw [convert_mkdir_exc h1 h2 hmk]; exact ⟨by simp, by simp⟩
      | none =>
        cases hrx : env.runExc with
        | some e =>
          cases e with
          | timeoutExpired =>
            rw [convert_run_timeout h1 h2 hmk hrx]
            cases hs : hasSink with
            | false => exact ⟨by simp, by simp⟩
            | true =>
              constructor
              · rw [if_pos rfl]
                exact sorted_exc_events _ _
              · rw [if_pos rfl]
                exact le100_exc_events _ _
          | other m =>
            rw [convert_run_other h1 h2 hmk hrx]
            cases hs : hasSink with
            | false => exact ⟨by simp, by simp⟩
            | true =>
              constructor
              · rw [if_pos rfl]
                exact sorted_exc_events _ _
              · rw [if_pos rfl]
                exact le100_exc_events _ _
        | none =>
          by_cases h5 : env.returncode = 0
          · rw [convert_ok h1 h2 hmk hrx h5]
            cases hs : hasSink with
            | false => exact ⟨by simp, by simp⟩
            | true =>
              constructor
              · rw [if_pos rfl]
                dsimp only
                rw [map_fst_ok_events]
                exact sorted_filter_ok _ _
              · rw [if_pos rfl]
                exact events_body_le_100 (by norm_num)
          · rw [convert_fail h1 h2 hmk hrx h5]
            cases hs : hasSink with
            | false => exact ⟨by simp, by simp⟩
            | true =>
              constructor
              · rw [if_pos rfl]
                dsimp only
                rw [map_fst_ok_events]
                exact sorted_filter_fail _ _
              · rw [if_pos rfl]
                exact events_body_le_100 (by norm_num)

/-- C4: when every validation step passes and no exception interrupts the
supervised phase, an exit code of 0 makes the Orchestrator return `True` and,
with a sink supplied, end the event sequence with a 100% completion event; a
non-zero exit code makes it return `False` and end the event sequence with a
negative-percentage error event whose message carries the accumulated
diagnostic-stream text verbatim (the rendered message is a fixed prefix
followed by the diagnostic text). -/
theorem outcome_interpretation_c4 (env : ConvEnv) (req : ConvRequest)
    (h1 : env.inputExists = true) (h2 : (env.outputExists && !req.overwrite) = false)
    (h3 : env.mkdirExc = none) (h4 : env.runExc = none) :
    (env.returncode = 0 →
      (∀ hasSink : Bool, (convert_rmvb_to_mp4 env req hasSink).ret = Except.ok true) ∧
      (convert_rmvb_to_mp4 env req true).events.getLast? =
        some ((100 : ℚ), SinkMsg.doneMsg)) ∧
    (env.returncode ≠ 0 →
      (∀ hasSink : Bool, (convert_rmvb_to_mp4 env req hasSink).ret = Except.ok false) ∧
      (convert_rmvb_to_mp4 env req true).events.getLast? =
        some ((-1 : ℚ), SinkMsg.failMsg (joinLines env.stderrLines)) ∧
      (∃ pre, failMsgText (joinLines env.stderrLines) = pre ++ joinLines env.stderrLines)) := by
  constructor
  · intro h5
    constructor
    · intro hasSink
      rw [convert_ok h1 h2 h3 h4 h5]
    · rw [convert_ok h1 h2 h3 h4 h5]
      rw [if_pos rfl]
      dsimp only
      exact List.getLast?_concat _
  · intro h5
    refine ⟨fun hasSink => by rw [convert_fail h1 h2 h3 h4 h5], ?_, ⟨failMsgPre, rfl⟩⟩
    rw [convert_fail h1 h2 h3 h4 h5]
    rw [if_pos rfl]
    dsimp only
    exact List.getLast?_concat _

/-- Input file name used by the concrete witness environments. -/
def demoInput : List Char := "in.rmvb".toList

/-- Quality tier used by the concrete witness environments. -/
def demoQuality : List Char := "medium".toList

/-- A conversion request used by the concrete witnesses: existing input, no
explicit output, medium quality, no overwrite. -/
def reqDemo : ConvRequest :=
  { input_file := demoInput, output_file := none, quality := demoQuality, overwrite := false }

/-- Environment in which everything succeeds: input exists, output does not,
directory creation succeeds, ffprobe reports a 100-second duration, the child
exits 0. -/
def envOkDemo : ConvEnv :=
  { inputExists := true, outputExists := false, mkdirExc := none,
    probe := ProbeCall.run 0 (JsonDur.val 100), runExc := none, returncode := 0,
    stdoutLines := [], stderrLines := [] }

/-- Witness for C4: the success half applied at a concrete all-good
environment. -/
theorem outcome_interpretation_c4_witness :
    (convert_rmvb_to_mp4 envOkDemo reqDemo true).ret = Except.ok true ∧
    (convert_rmvb_to_mp4 envOkDemo reqDemo true).events.getLast? =
      some ((100 : ℚ), SinkMsg.doneMsg) :=
  ⟨((outcome_interpretation_c4 envOkDemo reqDemo rfl rfl rfl rfl).1 rfl).1 true,
   ((outcome_interpretation_c4 envOkDemo reqDemo rfl rfl rfl rfl).1 rfl).2⟩

/-- C5: a request whose input path does not exist returns `False` without
consulting the Duration Probe and without launching the external process. -/
theorem fail_fast_missing_input_c5 (env : ConvEnv) (req : ConvRequest) (hasSink : Bool)
    (h : env.inputExists = false) :
    (convert_rmvb_to_mp4 env req hasSink).ret = Except.ok false ∧
    (convert_rmvb_to_mp4 env req hasSink).probeInvoked = false ∧
    (convert_rmvb_to_mp4 env req hasSink).processLaunched = false := by
  rw [convert_missing_input h]
  exact ⟨rfl, rfl, rfl⟩

/-- Environment in which the input path does not exist. -/
def envMissingInput : ConvEnv :=
  { inputExists := false, outputExists := false, mkdirExc := none,
    probe := ProbeCall.run 0 (JsonDur.val 100), runExc := none, returncode := 0,
    stdoutLines := [], stderrLines := [] }

/-- Witness for C5 at a concrete environment with a missing input path. -/
theorem fail_fast_missing_input_c5_witness :
    (convert_rmvb_to_mp4 envMissingInput reqDemo true).ret = Except.ok false ∧
    (convert_rmvb_to_mp4 envMissingInput reqDemo true).probeInvoked = false ∧
    (convert_rmvb_to_mp4 envMissingInput reqDemo true).processLaunched = false :=
  fail_fast_missing_input_c5 envMissingInput reqDemo true rfl

/-- C6: a request whose output path already exists, with overwrite disabled,
returns `False` without launching the external transcoding process. -/
theorem fail_fast_existing_output_c6 (env : ConvEnv) (req : ConvRequest) (hasSink : Bool)
    (h1 : env.inputExists = true) (h2 : env.outputExists = true)
    (h3 : req.overwrite = false) :
    (convert_rmvb_to_mp4 env req hasSink).ret = Except.ok false ∧
    (convert_rmvb_to_mp4 env req hasSink).processLaunched = false := by
  rw [convert_early_output h1 (by rw [h2, h3]; rfl)]
  exact ⟨rfl, rfl⟩

/-- Environment in which the input exists and the output path also already
exists. -/
def envOutputExists : ConvEnv :=
  { inputExists := true, outputExists := true, mkdirExc := none,
    probe := ProbeCall.run 0 (JsonDur.val 100), runExc := none, returncode := 0,
    stdoutLines := [], stderrLines := [] }

/-- Witness for C6 at a concrete environment with a pre-existing output path
and overwrite disabled. -/
theorem fail_fast_existing_output_c6_witness :
    (convert_rmvb_to_mp4 envOutputExists reqDemo true).ret = Except.ok false ∧
    (convert_rmvb_to_mp4 envOutputExists reqDemo true).processLaunched = false :=
  fail_fast_existing_output_c6 envOutputExists reqDemo true rfl rfl rfl

/-- Message of the exception raised by `output_path.parent.mkdir` in the C8
counterexample. -/
def permDeniedMsg : List Char := "PermissionError: Permission denied".toList

/-- Environment in which creating the output's parent directory raises: input
exists, output does not, but `mkdir` (source line 231) fails. -/
def envMkdirExc : ConvEnv :=
  { inputExists := true, outputExists := false,
    mkdirExc := some (PyExn.other permDeniedMsg),
    probe := ProbeCall.run 0 (JsonDur.val 100), runExc := none, returncode := 0,
    stdoutLines := [], stderrLines := [] }

/-- C8 counterexample: `output_path.parent.mkdir` (source line 231) sits
outside the `try` block that starts at source line 269, so an exception
raised there escapes `convert_rmvb_to_mp4` instead of being converted to a
boolean `False` — refuting the claim that no exception anywhere in steps 1–10
can escape. -/
theorem orchestrator_exception_c8_counterexample :
    (convert_rmvb_to_mp4 envMkdirExc reqDemo true).ret =
      Except.error (PyExn.other permDeniedMsg) ∧
    (∀ b : Bool, (convert_rmvb_to_mp4 envMkdirExc reqDemo true).ret ≠ Except.ok b) := by
  have h := @convert_mkdir_exc envMkdirExc reqDemo true (PyExn.other permDeniedMsg)
    rfl rfl rfl
  constructor
  · rw [h]
  · intro b hb
    rw [h] at hb
    exact Except.noConfusion hb

/-- C8 amended: provided the directory-creation step (the only fallible step
outside the `try` block) does not raise, the Orchestrator never lets an
exception escape: it always returns a boolean, and an exception arising in
the supervised phase yields `False` together with a trailing
negative-percentage error event when a sink is supplied. -/
theorem orchestrator_exception_c8_amended (env : ConvEnv) (req : ConvRequest)
    (hasSink : Bool) (hmk : env.mkdirExc = none) :
    (∃ b : Bool, (convert_rmvb_to_mp4 env req hasSink).ret = Except.ok b) ∧
    (∀ e : PyExn, env.runExc = some e →
      env.inputExists = true → (env.outputExists && !req.overwrite) = false →
      (convert_rmvb_to_mp4 env req hasSink).ret = Except.ok false ∧
      (convert_rmvb_to_mp4 env req true).events.getLast?.map Prod.fst =
        some (-1 : ℚ)) := by
  constructor
  · cases h1 : env.inputExists with
    | false => exact ⟨false, by rw [convert_missing_input h1]⟩
    | true =>
      cases h2 : env.outputExists && !req.overwrite with
      | true => exact ⟨false, by rw [convert_early_output h1 h2]⟩
      | false =>
        cases hrx : env.runExc with
        | some e =>
          cases e with
          | timeoutExpired => exact ⟨false, by rw [convert_run_timeout h1 h2 hmk hrx]⟩
          | other m => exact ⟨false, by rw [convert_run_other h1 h2 hmk hrx]⟩
        | none =>
          by_cases h5 : env.returncode = 0
          · exact ⟨true, by rw [convert_ok h1 h2 hmk hrx h5]⟩
          · exact ⟨false, by rw [convert_fail h1 h2 hmk hrx h5]⟩
  · intro e he h1 h2
    cases e with
    | timeoutExpired =>
      rw [convert_run_timeout h1 h2 hmk he, convert_run_timeout h1 h2 hmk he]
      exact ⟨rfl, by rw [if_pos rfl]; rfl⟩
    | other m =>
      rw [convert_run_other h1 h2 hmk he, convert_run_other h1 h2 hmk he]
      exact ⟨rfl, by rw [if_pos rfl]; rfl⟩

/-- Message of the unexpected exception in the C8 witness. -/
def boomMsg : List Char := "unexpected error".toList

/-- Environment in which an unexpected exception interrupts the supervised
phase inside the `try` block. -/
def envRunExc : ConvEnv :=
  { inputExists := true, outputExists := false, mkdirExc := none,
    probe := ProbeCall.run 0 (JsonDur.val 100),
    runExc := some (PyExn.other boomMsg), returncode := 0,
    stdoutLines := [], stderrLines := [] }

/-- Witness for the amended C8 at a concrete environment whose supervised
phase raises. -/
theorem orchestrator_exception_c8_witness :
    (convert_rmvb_to_mp4 envRunExc reqDemo true).ret = Except.ok false ∧
    (convert_rmvb_to_mp4 envRunExc reqDemo true).events.getLast?.map Prod.fst =
      some (-1 : ℚ) :=
  (orchestrator_exception_c8_amended envRunExc reqDemo true rfl).2
    (PyExn.other boomMsg) rfl rfl rfl

/-- Boolean test that `needle` is a suffix of `hay` (character lists). -/
def isSuffixL (needle hay : List Char) : Bool := isPrefixL needle.reverse hay.reverse

/-- Index of the last `.` in a file name, embedding `name.rfind('.')` as used
by `pathlib` to compute `stem` and `suffix`. -/
def rfindDot (n : List Char) : Option ℕ :=
  ((List.range n.length).filter (fun i => n.getD i ' ' = '.')).getLast?

/-- The file name without its final extension, embedding `pathlib`'s `stem`
(used on source line 349): the part before the last dot when that dot is
neither the first nor the last character, the whole name otherwise. -/
def stem (n : List Char) : List Char :=
  match rfindDot n with
  | none => n
  | some i => if 0 < i ∧ i < n.length - 1 then n.take i else n

/-- Characters of the lowercase glob suffix `.rmvb` (source line 338). -/
def rmvbLower : List Char := ".rmvb".toList

/-- Characters of the uppercase glob suffix `.RMVB` (source line 338). -/
def rmvbUpper : List Char := ".RMVB".toList

/-- Characters of the output extension `.mp4` (source line 349). -/
def mp4Ext : List Char := ".mp4".toList

/-- Model of `input_path.glob("*<suffix>")` for the fixed patterns `*.rmvb`
and `*.RMVB` of source line 338: the directory entries whose names end with
the literal suffix, in directory order.  Matching is case-sensitive (POSIX
glob semantics). -/
def globSuffix (entries : List (List Char)) (suf : List Char) : List (List Char) :=
  entries.filter (fun n => isSuffixL suf n)

/-- The file list built on source line 338:
`list(input_path.glob("*.rmvb")) + list(input_path.glob("*.RMVB"))`. -/
def batchMatches (entries : List (List Char)) : List (List Char) :=
  globSuffix entries rmvbLower ++ globSuffix entries rmvbUpper

/-- Join a directory path and an entry name with the path separator. -/
def joinPath (d n : List Char) : List Char := d ++ ('/' :: n)

/-- The external world observed by one run of the Batch Driver: existence and
directory-ness of the input directory (line 327), the directory entries, the
outcome of creating the output directory (line 335), and the per-file
conversion environment keyed by full input path. -/
structure BatchEnv where
  dirExists : Bool
  isDir : Bool
  entries : List (List Char)
  outMkdirExc : Option PyExn
  fileEnv : List Char → ConvEnv

/-- Result of one run of the Batch Driver: the returned success list (or an
escaped exception), the full input paths for which the Orchestrator was
invoked, in order, and the calls the driver itself makes to the
caller-supplied sink. -/
structure BatchResult where
  ret : Except PyExn (List (List Char))
  invoked : List (List Char)
  driverSinkCalls : List (ℚ × SinkMsg)

/-- The per-file loop of the Batch Driver (source lines 348–357): for each
matched name, derive the output path `output_dir / (stem + ".mp4")`, invoke
the Orchestrator without a progress callback, and collect the output path
when that invocation returns `True`; an exception escaping the Orchestrator
aborts the loop. -/
def batchLoop (fe : List Char → ConvEnv) (inDir outDir q : List Char) (ow : Bool) :
    List (List Char) → List (List Char) × Except PyExn (List (List Char))
  | [] => ([], Except.ok [])
  | n :: ns =>
    match (convert_rmvb_to_mp4 (fe (joinPath inDir n))
        { input_file := joinPath inDir n,
          output_file := some (joinPath outDir (stem n ++ mp4Ext)),
          quality := q, overwrite := ow } false).ret with
    | Except.error e => ([joinPath inDir n], Except.error e)
    | Except.ok b =>
      (joinPath inDir n :: (batchLoop fe inDir outDir q ow ns).1,
       match (batchLoop fe inDir outDir q ow ns).2 with
       | Except.error e => Except.error e
       | Except.ok l =>
         Except.ok (if b then joinPath outDir (stem n ++ mp4Ext) :: l else l))

/-- The Batch Driver `batch_convert_rmvb_to_mp4` (source lines 305–360): a
missing or non-directory input yields `[]` (lines 327–329); the output
directory defaults to the input directory (lines 331–332) and its creation
(line 335) sits outside any `try`; the matched files are the two glob lists
concatenated (line 338); each is converted sequentially and the successful
output paths returned (lines 346–360).  The `progress_callback` parameter
(line 311) is accepted but never referenced: the per-file call (lines
351–356) does not forward it, and the driver itself never invokes it. -/
def batch_convert_rmvb_to_mp4 (benv : BatchEnv) (input_dir : List Char)
    (output_dir : Option (List Char)) (quality : List Char) (overwrite : Bool)
    (progress_callback : Bool) : BatchResult :=
  if !(benv.dirExists && benv.isDir) then
    { ret := Except.ok [], invoked := [], driverSinkCalls := [] }
  else
    match benv.outMkdirExc with
    | some e => { ret := Except.error e, invoked := [], driverSinkCalls := [] }
    | none =>
      { ret :=
          (batchLoop benv.fileEnv input_dir (output_dir.getD input_dir) quality overwrite
            (batchMatches benv.entries)).2,
        invoked :=
          (batchLoop benv.fileEnv input_dir (output_dir.getD input_dir) quality overwrite
            (batchMatches benv.entries)).1,
        driverSinkCalls := [] }

/-- Boolean test that the Orchestrator, run as the Batch Driver runs it on
entry `n`, returns `True`. -/
def convSucceeded (fe : List Char → ConvEnv) (inDir outDir q : List Char) (ow : Bool)
    (n : List Char) : Bool :=
  match (convert_rmvb_to_mp4 (fe (joinPath inDir n))
      { input_file := joinPath inDir n,
        output_file := some (joinPath outDir (stem n ++ mp4Ext)),
        quality := q, overwrite := ow } false).ret with
  | Except.ok true => true
  | _ => false

lemma batchLoop_cons_ok {fe : List Char → ConvEnv} {inDir outDir q : List Char}
    {ow : Bool} {n : List Char} {ns : List (List Char)} {b : Bool}
    (hb : (convert_rmvb_to_mp4 (fe (joinPath inDir n))
        { input_file := joinPath inDir n,
          output_file := some (joinPath outDir (stem n ++ mp4Ext)),
          quality := q, overwrite := ow } false).ret = Except.ok b) :
    batchLoop fe inDir outDir q ow (n :: ns) =
      (joinPath inDir n :: (batchLoop fe inDir outDir q ow ns).1,
       match (batchLoop fe inDir outDir q ow ns).2 with
       | Except.error e => Except.error e
       | Except.ok l =>
         Except.ok (if b then joinPath outDir (stem n ++ mp4Ext) :: l else l)) := by
  rw [batchLoop, hb]

lemma convSucceeded_of_ret {fe : List Char → ConvEnv} {inDir outDir q : List Char}
    {ow : Bool} {n : List Char} {b : Bool}
    (hb : (convert_rmvb_to_mp4 (fe (joinPath inDir n))
        { input_file := joinPath inDir n,
          output_file := some (joinPath outDir (stem n ++ mp4Ext)),
          quality := q, overwrite := ow } false).ret = Except.ok b) :
    convSucceeded fe inDir outDir q ow n = b := by
  unfold convSucceeded
  rw [hb]
  cases b <;> rfl

lemma batchLoop_no_exc (fe : List Char → ConvEnv) (inDir outDir q : List Char)
    (ow : Bool) (ns : List (List Char))
    (h : ∀ n ∈ ns, ∃ b : Bool,
      (convert_rmvb_to_mp4 (fe (joinPath inDir n))
        { input_file := joinPath inDir n,
          output_file := some (joinPath outDir (stem n ++ mp4Ext)),
          quality := q, overwrite := ow } false).ret = Except.ok b) :
    (batchLoop fe inDir outDir q ow ns).1 = ns.map (joinPath inDir) ∧
    (batchLoop fe inDir outDir q ow ns).2 =
      Except.ok ((ns.filter (convSucceeded fe inDir outDir q ow)).map
        (fun n => joinPath outDir (stem n ++ mp4Ext))) := by
  induction ns with
  | nil => exact ⟨rfl, rfl⟩
  | cons n ns ih =>
    rcases h n (by simp) with ⟨b, hb⟩
    have ih' := ih (fun m hm => h m (by simp [hm]))
    rw [batchLoop_cons_ok hb]
    constructor
    · simp [ih'.1]
    · rw [List.filter_cons, convSucceeded_of_ret hb]
      cases b with
      | false => simp [ih'.2]
      | true => simp [ih'.2]

/-- Directory entry `a.rmvb` (matches the lowercase glob). -/
def fA : List Char := "a.rmvb".toList

/-- Directory entry `b.rmvb` (matches the lowercase glob). -/
def fB : List Char := "b.rmvb".toList

/-- Directory entry `c.rmvb` (matches the lowercase glob). -/
def fC : List Char := "c.rmvb".toList

/-- Directory entry `notes.txt` (matches neither glob). -/
def fTxt : List Char := "notes.txt".toList

/-- Directory entry `d.mp4` (matches neither glob). -/
def fMp4 : List Char := "d.mp4".toList

/-- Directory entry `movie.Rmvb`: its extension matches `.rmvb`
case-insensitively but matches neither of the two globbed casings. -/
def fMixed : List Char := "movie.Rmvb".toList

/-- Input directory used by the batch witnesses. -/
def demoDir : List Char := "media".toList

/-- Batch environment with three matching and two non-matching entries, every
conversion succeeding. -/
def benvDemo : BatchEnv :=
  { dirExists := true, isDir := true, entries := [fA, fTxt, fB, fMp4, fC],
    outMkdirExc := none, fileEnv := fun _ => envOkDemo }

/-- Batch environment over an empty directory. -/
def benvEmpty : BatchEnv :=
  { dirExists := true, isDir := true, entries := [], outMkdirExc := none,
    fileEnv := fun _ => envOkDemo }

/-- Batch environment whose only entry is `movie.Rmvb`. -/
def benvMixed : BatchEnv :=
  { dirExists := true, isDir := true, entries := [fMixed], outMkdirExc := none,
    fileEnv := fun _ => envOkDemo }

/-- C9 as amended: the Batch Driver enumerates exactly the entries whose
names end in the two literal casings `.rmvb` and `.RMVB` of source line 338
(glob matching is case-sensitive, so other casings are not enumerated),
invokes the Orchestrator exactly once per enumerated file sequentially, and
returns exactly the output paths whose conversion returned `True`; a
directory with three lowercase-matching and two non-matching entries yields
exactly three invocations; an empty directory yields an empty list without
error. -/
theorem batch_driver_c9 :
    (∀ (benv : BatchEnv) (inDir : List Char) (outDirOpt : Option (List Char))
        (q : List Char) (ow pcb : Bool),
      benv.dirExists = true → benv.isDir = true → benv.outMkdirExc = none →
      (∀ n ∈ batchMatches benv.entries, ∃ b : Bool,
        (convert_rmvb_to_mp4 (benv.fileEnv (joinPath inDir n))
          { input_file := joinPath inDir n,
            output_file := some (joinPath (outDirOpt.getD inDir) (stem n ++ mp4Ext)),
            quality := q, overwrite := ow } false).ret = Except.ok b) →
      (batch_convert_rmvb_to_mp4 benv inDir outDirOpt q ow pcb).invoked =
        (batchMatches benv.entries).map (joinPath inDir) ∧
      (batch_convert_rmvb_to_mp4 benv inDir outDirOpt q ow pcb).ret =
        Except.ok (((batchMatches benv.entries).filter
            (convSucceeded benv.fileEnv inDir (outDirOpt.getD inDir) q ow)).map
          (fun n => joinPath (outDirOpt.getD inDir) (stem n ++ mp4Ext)))) ∧
    ((batch_convert_rmvb_to_mp4 benvDemo demoDir none demoQuality false false).invoked =
        [joinPath demoDir fA, joinPath demoDir fB, joinPath demoDir fC] ∧
      (batch_convert_rmvb_to_mp4 benvDemo demoDir none demoQuality false false).ret =
        Except.ok [joinPath demoDir (stem fA ++ mp4Ext),
          joinPath demoDir (stem fB ++ mp4Ext), joinPath demoDir (stem fC ++ mp4Ext)]) ∧
    ((batch_convert_rmvb_to_mp4 benvEmpty demoDir none demoQuality false false).ret =
        Except.ok [] ∧
      (batch_convert_rmvb_to_mp4 benvEmpty demoDir none demoQuality false false).invoked =
        []) := by
  refine ⟨?_, ⟨rfl, rfl⟩, rfl, rfl⟩
  intro benv inDir outDirOpt q ow pcb hd hid hmk h
  have hloop := batchLoop_no_exc benv.fileEnv inDir (outDirOpt.getD inDir) q ow
    (batchMatches benv.entries) h
  unfold batch_convert_rmvb_to_mp4
  rw [if_neg (by rw [hd, hid]; simp), hmk]
  exact ⟨hloop.1, hloop.2⟩

/-- Witness for C9: the general statement applied at the concrete
three-matching-entries environment. -/
theorem batch_driver_c9_witness :
    (batch_convert_rmvb_to_mp4 benvDemo demoDir none demoQuality false true).invoked =
      (batchMatches benvDemo.entries).map (joinPath demoDir) ∧
    (batch_convert_rmvb_to_mp4 benvDemo demoDir none demoQuality false true).ret =
      Except.ok (((batchMatches benvDemo.entries).filter
          (convSucceeded benvDemo.fileEnv demoDir ((none : Option (List Char)).getD demoDir)
            demoQuality false)).map
        (fun n => joinPath ((none : Option (List Char)).getD demoDir) (stem n ++ mp4Ext))) :=
  batch_driver_c9.1 benvDemo demoDir none demoQuality false true rfl rfl rfl
    (fun n _ => ⟨true, rfl⟩)

/-- C9 counterexample: the entry `movie.Rmvb` matches the source extension
case-insensitively (its lowercased name ends in `.rmvb`), yet the Batch
Driver enumerates nothing and invokes the Orchestrator zero times — refuting
the claim that enumeration is case-insensitive. -/
theorem batch_driver_c9_counterexample :
    isSuffixL rmvbLower (fMixed.map Char.toLower) = true ∧
    (batch_convert_rmvb_to_mp4 benvMixed demoDir none demoQuality false false).invoked =
      [] ∧
    (batch_convert_rmvb_to_mp4 benvMixed demoDir none demoQuality false false).ret =
      Except.ok [] :=
  ⟨by decide, rfl, rfl⟩

/-- C10: the Batch Driver accepts a `progress_callback` argument but never
invokes it and never forwards it: its result is independent of whether a sink
was supplied, the driver itself makes no sink calls, and the per-file
conversions are run without a sink, so they deliver no events either. -/
theorem batch_sink_unused_c10 :
    (∀ (benv : BatchEnv) (inDir : List Char) (outDirOpt : Option (List Char))
        (q : List Char) (ow pcb pcb' : Bool),
      batch_convert_rmvb_to_mp4 benv inDir outDirOpt q ow pcb =
        batch_convert_rmvb_to_mp4 benv inDir outDirOpt q ow pcb') ∧
    (∀ (benv : BatchEnv) (inDir : List Char) (outDirOpt : Option (List Char))
        (q : List Char) (ow pcb : Bool),
      (batch_convert_rmvb_to_mp4 benv inDir outDirOpt q ow pcb).driverSinkCalls = []) ∧
    (∀ (env : ConvEnv) (req : ConvRequest),
      (convert_rmvb_to_mp4 env req false).events = []) := by
  refine ⟨fun benv inDir outDirOpt q ow pcb pcb' => rfl, ?_, ?_⟩
  · intro benv inDir outDirOpt q ow pcb
    unfold batch_convert_rmvb_to_mp4
    split
    · rfl
    · split <;> rfl
  · intro env req
    cases h1 : env.inputExists with
    | false => rw [convert_missing_input h1]
    | true =>
      cases h2 : env.outputExists && !req.overwrite with
      | true => rw [convert_early_output h1 h2]
      | false =>
        cases hmk : env.mkdirExc with
        | some e => rw [convert_mkdir_exc h1 h2 hmk]
        | none =>
          cases hrx : env.runExc with
          | some e =>
            cases e with
            | timeoutExpired => rw [convert_run_timeout h1 h2 hmk hrx]; rfl
            | other m => rw [convert_run_other h1 h2 hmk hrx]; rfl
          | none =>
            by_cases h5 : env.returncode = 0
            · rw [convert_ok h1 h2 hmk hrx h5]; rfl
            · rw [convert_fail h1 h2 hmk hrx h5]; rfl

end
